import Mathlib

/-!
Verification of `scripts/load_question_md.py`, a CLI tool that converts a
structured markdown question document into a normalized record and upserts it
into a `content.questions` table.

The script's own logic (section splitting, attribute parsing, payload
assembly, the reconciliation rules of the fragment renderers) is embedded
directly from the source.  The third-party markdown renderer
(`markdown-it-py`, CommonMark with escaping disabled) and the HTML tree
walker (`BeautifulSoup` with the `html.parser` backend) are external
libraries; they are modelled from the spec (section 4.3) on the block forms
exercised by the documents considered here: paragraphs, `- ` bullet lists,
raw HTML blocks, and link reference definitions (which CommonMark renders to
no output at all).  Python `str` helpers (`strip`, `splitlines`, `split`),
`int()` and `float()` are modelled as well; `float()` values are represented
as exact rationals (`mkRat`), which is exact on the decimal literals used.
-/

namespace LoadQuestionMd

/-- Model of Python `str.strip()` on the underlying character list:
drop whitespace from both ends. -/
def stripChars (l : List Char) : List Char :=
  (l.dropWhile Char.isWhitespace).rdropWhile Char.isWhitespace

/-- Model of Python `str.strip()`. -/
def pyStrip (s : String) : String :=
  String.mk (stripChars s.data)

/-- Split a character list at every newline character (every segment, the
final one included, even when empty). -/
def splitLinesChars : List Char → List (List Char)
  | [] => [[]]
  | c :: rest =>
    if c = '\n' then
      [] :: splitLinesChars rest
    else
      match splitLinesChars rest with
      | [] => [[c]]
      | p :: ps => (c :: p) :: ps

/-- Model of Python `str.splitlines()` for `\n`-separated text (the only
line terminator in the documents this tool ingests): split at newlines and
drop the empty segment a trailing newline would produce, so that
`"".splitlines() = []` and `"a\n".splitlines() = ["a"]`. -/
def pySplitlines (s : String) : List String :=
  let parts := (splitLinesChars s.data).map String.mk
  if parts.getLast? = some "" then parts.dropLast else parts

/-- Lexicographic comparison of character lists by code point, the order
Python `sorted` uses on strings. -/
def charsLe : List Char → List Char → Bool
  | [], _ => true
  | _ :: _, [] => false
  | x :: xs, y :: ys =>
    if x.val < y.val then true
    else if y.val < x.val then false
    else charsLe xs ys

/-- Insert a string into a list sorted by `charsLe`. -/
def insertStr (x : String) : List String → List String
  | [] => [x]
  | y :: ys => if charsLe x.data y.data then x :: y :: ys else y :: insertStr x ys

/-- Model of Python `sorted` on a list of strings (insertion sort by code
point order). -/
def sortStrings : List String → List String
  | [] => []
  | x :: xs => insertStr x (sortStrings xs)

/-- Numeric value of a list of decimal digit characters. -/
def digitsToNat (l : List Char) : Nat :=
  l.foldl (fun n c => 10 * n + (c.toNat - 48)) 0

/-- Model of Python `int(s)`: optional surrounding whitespace, optional
sign, then one or more decimal digits (digit-group underscores are not
modelled). Returns `none` where `int()` raises `ValueError`. -/
def pyInt (s : String) : Option Int :=
  let t := stripChars s.data
  let (neg, t) :=
    match t with
    | '-' :: r => (true, r)
    | '+' :: r => (false, r)
    | r => (false, r)
  if t ≠ [] ∧ t.all Char.isDigit then
    some (if neg then -(digitsToNat t : Int) else (digitsToNat t : Int))
  else
    none

/-- Modelled from the spec: Python `float(s)` for plain decimal literals
(optional surrounding whitespace, optional sign, digits with at most one
decimal point, at least one digit).  The value is represented as an exact
rational, which agrees with the decimal literal being parsed; returns
`none` where `float()` raises `ValueError`. -/
def pyFloat (s : String) : Option Rat :=
  let t := stripChars s.data
  let (neg, t) :=
    match t with
    | '-' :: r => (true, r)
    | '+' :: r => (false, r)
    | r => (false, r)
  let intPart := t.takeWhile Char.isDigit
  let rest := t.drop intPart.length
  let value? : Option Rat :=
    match rest with
    | [] => if intPart = [] then none else some (mkRat (digitsToNat intPart) 1)
    | '.' :: fr =>
      if fr.all Char.isDigit ∧ (intPart ≠ [] ∨ fr ≠ []) then
        some (mkRat (digitsToNat intPart * 10 ^ fr.length + digitsToNat fr) (10 ^ fr.length))
      else none
    | _ => none
  value?.map (fun v => if neg then -v else v)

/-! ## HTML tree model

`BeautifulSoup(html, "html.parser")` yields a tree of tags and text nodes;
the script only inspects node names, direct `li` children, `str(node)` and
`get_text(separator=" ", strip=True)`.  We model the tree shape with a
mutual inductive so that all traversals are structurally recursive. -/

mutual
/-- A parsed HTML node: a bare text run (`NavigableString`) or an element
(`Tag`) with its children. -/
inductive HNode where
  | text (s : String)
  | elem (name : String) (children : HNodeList)
/-- List of HTML nodes (mutual with `HNode` so traversals recurse
structurally). -/
inductive HNodeList where
  | nil
  | cons (head : HNode) (tail : HNodeList)
end

mutual
/-- All text runs in a node, in document order (the strings
`get_text` concatenates). -/
def collectStrings : HNode → List String
  | .text s => [s]
  | .elem _ cs => collectStringsL cs
/-- All text runs under a list of nodes. -/
def collectStringsL : HNodeList → List String
  | .nil => []
  | .cons n rest => collectStrings n ++ collectStringsL rest
end

mutual
/-- Model of `str(node)`: serialize a node back to HTML. -/
def htmlOf : HNode → String
  | .text s => s
  | .elem name cs => "<" ++ name ++ ">" ++ htmlOfL cs ++ "</" ++ name ++ ">"
/-- Serialization of a list of nodes. -/
def htmlOfL : HNodeList → String
  | .nil => ""
  | .cons n rest => htmlOf n ++ htmlOfL rest
end

/-- Model of `node.get_text(separator=" ", strip=True)`: strip every text
run, skip the ones that become empty, join the rest with single spaces. -/
def getTextStrip (n : HNode) : String :=
  String.intercalate " " (((collectStrings n).map pyStrip).filter (fun s => s ≠ ""))

/-- Model of `node.find_all("li", recursive=False)`: the direct children
that are `li` elements (text runs between them are skipped). -/
def liChildren : HNodeList → List HNode
  | .nil => []
  | .cons n rest =>
    match n with
    | .elem "li" cs => HNode.elem "li" cs :: liChildren rest
    | _ => liChildren rest

/-- Model of `soup.get_text(separator=" ", strip=True)` over the whole
parsed document (the final fallback of `markdown_to_text_list`). -/
def soupGetText (nodes : List HNode) : String :=
  String.intercalate " " (((nodes.flatMap collectStrings).map pyStrip).filter (fun s => s ≠ ""))

/-! ## Markdown renderer model -/

/-- Build an `HNodeList` from a plain list. -/
def toHNodeList : List HNode → HNodeList
  | [] => .nil
  | n :: rest => .cons n (toHNodeList rest)

/-- Group the lines of a markdown source into blocks: maximal runs of
non-blank lines, blank lines (whitespace-only after stripping) acting as
separators. -/
def blocksOf (lines : List String) : List (List String) :=
  (lines.foldr
    (fun l acc =>
      if pyStrip l = "" then [] :: acc
      else
        match acc with
        | b :: bs => (l :: b) :: bs
        | [] => [[l]])
    []).filter (fun b => b ≠ [])

/-- Does a (stripped) line have the `- ` bullet-item form? -/
def isDashItem : List Char → Bool
  | '-' :: ' ' :: _ => true
  | _ => false

/-- Does a character list contain the consecutive pair `]:` (the closing
mark of a link reference label)? -/
def hasRefDefMark : List Char → Bool
  | ']' :: ':' :: _ => true
  | _ :: rest => hasRefDefMark rest
  | [] => false

/-- Does a (stripped) line have the link-reference-definition form
`[label]: destination`?  CommonMark renders such a definition to no output
at all. -/
def isLinkRefDef (cs : List Char) : Bool :=
  match cs with
  | '[' :: rest => hasRefDefMark rest
  | _ => false

/-- Modelled from the spec: how the external CommonMark renderer
(`MarkdownIt("commonmark").disable("escape")`) turns one block into an HTML
node, composed with the `BeautifulSoup` parse.  Restricted to the block
forms exercised here: a run of `- ` bullet lines becomes a `ul` whose `li`
items hold the trimmed item text (with the newline text runs the renderer
emits between them), the raw HTML block `<hr>` passes through as a bare
element, a block of link reference definitions renders to NO output
(`none`), and any other block becomes a `p` holding its lines joined by
soft-break newlines. -/
def blockToNode (b : List String) : Option HNode :=
  let stripped := b.map pyStrip
  if stripped.all (fun l => isDashItem l.data) then
    some (.elem "ul" (toHNodeList
      (HNode.text "\n" ::
        stripped.flatMap (fun l =>
          [HNode.elem "li" (.cons (.text (pyStrip (String.mk (l.data.drop 2)))) .nil),
           HNode.text "\n"]))))
  else if stripped = ["<hr>"] then
    some (.elem "hr" .nil)
  else if stripped.all (fun l => isLinkRefDef l.data) then
    none
  else
    some (.elem "p" (.cons (.text (String.intercalate "\n" stripped)) .nil))

/-- Modelled from the spec: `BeautifulSoup(render(text).strip(),
"html.parser").contents` — the top-level nodes of the rendered HTML, with
the newline text runs the renderer leaves between blocks; blocks that
render to nothing (link reference definitions) contribute no node. -/
def renderNodes (text : String) : List HNode :=
  List.intersperse (.text "\n") ((blocksOf (pySplitlines text)).filterMap blockToNode)

/-- Concatenation of a list of strings. -/
def concatAll : List String → String
  | [] => ""
  | s :: rest => s ++ concatAll rest

/-- Modelled from the spec: `MARKDOWN_RENDERER.render(text).strip()`, read
back off the parsed node list. -/
def renderHtml (text : String) : String :=
  concatAll ((renderNodes text).map htmlOf)

/-- Embeds `markdown_to_html`: strip the source; an empty source renders to
the empty string, anything else to its (stripped) rendered HTML. -/
def markdown_to_html (source : String) : String :=
  let text := pyStrip source
  if text = "" then "" else renderHtml text

/-- The node walk of `markdown_to_html_list`: bare text runs are emitted
stripped (when non-empty), `ul`/`ol` elements contribute `str(child)` for
each direct `li` child, every other element contributes its own
`str(node)`. -/
def walkHtml : List HNode → List String
  | [] => []
  | .text s :: rest =>
    (if pyStrip s = "" then [] else [pyStrip s]) ++ walkHtml rest
  | .elem name cs :: rest =>
    (if name = "ul" ∨ name = "ol" then (liChildren cs).map htmlOf
     else [htmlOf (.elem name cs)]) ++ walkHtml rest

/-- The `cleaned` list of `markdown_to_html_list`: each walked fragment
stripped, empty results dropped. -/
def htmlCleanedFragments (text : String) : List String :=
  ((walkHtml (renderNodes text)).map pyStrip).filter (fun f => f ≠ "")

/-- Embeds `markdown_to_html_list`: render, walk the top-level nodes, strip
and drop empty fragments; `cleaned or [html]` falls back to the whole
rendered HTML when no fragment survives. -/
def markdown_to_html_list (source : String) : List String :=
  let text := pyStrip source
  if text = "" then []
  else
    let cleaned := htmlCleanedFragments text
    if cleaned = [] then [renderHtml text] else cleaned

/-- The node walk of `markdown_to_text_list`: like `walkHtml` but emitting
`get_text(separator=" ", strip=True)` of each node (or of each direct `li`
child for `ul`/`ol`), skipping empty texts. -/
def walkText : List HNode → List String
  | [] => []
  | .text s :: rest =>
    (if pyStrip s = "" then [] else [pyStrip s]) ++ walkText rest
  | .elem name cs :: rest =>
    (if name = "ul" ∨ name = "ol" then
      ((liChildren cs).map getTextStrip).filter (fun t => t ≠ "")
     else
      (let t := getTextStrip (.elem name cs)
       if t = "" then [] else [t])) ++ walkText rest

/-- The `cleaned_fragments` list of `markdown_to_text_list` (the loop only
appends non-empty texts; the final comprehension filters again). -/
def textCleanedFragments (text : String) : List String :=
  (walkText (renderNodes text)).filter (fun f => f ≠ "")

/-- The `raw_lines` list of `markdown_to_text_list`: the stripped non-blank
lines of the (stripped) source. -/
def rawLines (text : String) : List String :=
  ((pySplitlines text).map pyStrip).filter (fun l => l ≠ "")

/-- Embeds `markdown_to_text_list`, reconciliation rules included: one
rendered fragment against several raw lines prefers the raw lines; no
fragments with several raw lines also returns the raw lines; otherwise the
whole-soup plain text is the final fallback (empty list if that is empty
too). -/
def markdown_to_text_list (source : String) : List String :=
  let text := pyStrip source
  if text = "" then []
  else
    let cleaned_fragments := textCleanedFragments text
    let raw_lines := rawLines text
    if cleaned_fragments ≠ [] then
      if cleaned_fragments.length = 1 ∧ raw_lines.length > 1 then raw_lines
      else cleaned_fragments
    else if raw_lines.length > 1 then raw_lines
    else
      let fallback := soupGetText (renderNodes text)
      if fallback ≠ "" then [fallback] else []

/-! ## Section splitting -/

/-- Embeds the regex match `re.match(r"^(#{1,6})\s+(.*)$", line)` together
with the `match.group(2).strip()` of `parse_sections`: a run of one to six
`#` characters followed by at least one whitespace character makes the line
a heading whose title is the trimmed remainder. -/
def headingMatch (line : String) : Option String :=
  let cs := line.data
  let hashes := cs.takeWhile (fun c => c = '#')
  let rest := cs.dropWhile (fun c => c = '#')
  if 1 ≤ hashes.length ∧ hashes.length ≤ 6 then
    match rest with
    | c :: _ =>
      if c.isWhitespace then
        some (pyStrip (String.mk (rest.dropWhile Char.isWhitespace)))
      else none
    | [] => none
  else none

/-- The loop state of `parse_sections`: the sections built so far (a dict,
modelled as a lookup function), the active heading and the line buffer. -/
structure ParseState where
  sections : String → Option String
  current : Option String
  buffer : List String

/-- Flushing the open buffer into the section dict (the body stored is the
buffer joined by newlines and stripped); a dict update binds the current
heading, overwriting any earlier binding. -/
def flushState (st : ParseState) : String → Option String :=
  match st.current with
  | some h => fun q =>
      if q = h then some (pyStrip (String.intercalate "\n" st.buffer)) else st.sections q
  | none => st.sections

/-- One iteration of the `parse_sections` loop: a heading line flushes the
open buffer and starts a new section; other lines are buffered when a
heading is active and discarded before the first heading. -/
def parseStep (st : ParseState) (raw_line : String) : ParseState :=
  match headingMatch (pyStrip raw_line) with
  | some title => { sections := flushState st, current := some title, buffer := [] }
  | none =>
    match st.current with
    | some _ => { st with buffer := st.buffer ++ [raw_line] }
    | none => st

/-- Embeds `parse_sections`: fold the loop over the document's lines, then
flush the final open buffer.  The resulting dict is modelled as its lookup
function. -/
def parse_sections (content : String) : String → Option String :=
  flushState ((pySplitlines content).foldl parseStep ⟨fun _ => none, none, []⟩)

/-- The lines of a section body: everything up to the next heading line. -/
def bodyAfter (ls : List String) : List String :=
  ls.takeWhile (fun l => (headingMatch (pyStrip l)).isNone)

/-- Section lookup as the spec words it (sections 4.1 and 3): the body bound
to a title is the text accumulated under its LAST heading occurrence — the
lines following that heading up to the next heading, joined by newlines and
trimmed. -/
def specLookup : List String → String → Option String
  | [], _ => none
  | l :: rest, t =>
    match specLookup rest t with
    | some b => some b
    | none =>
      if headingMatch (pyStrip l) = some t then
        some (pyStrip (String.intercalate "\n" (bodyAfter rest)))
      else none

/-! ## Attributes and payload -/

/-- Embeds `parse_attributes`: for each non-blank line containing a colon,
split at the FIRST colon; key and value are trimmed; later lines overwrite
earlier ones with the same key.  The dict is modelled as its lookup
function. -/
def parse_attributes (raw_text : String) : String → Option String :=
  (pySplitlines raw_text).foldl
    (fun attributes line =>
      let cleaned := pyStrip line
      if cleaned = "" ∨ ¬ cleaned.data.contains ':' then attributes
      else
        let key := pyStrip (String.mk (cleaned.data.takeWhile (fun c => c ≠ ':')))
        let value := pyStrip (String.mk ((cleaned.data.dropWhile (fun c => c ≠ ':')).tail))
        fun q => if q = key then some value else attributes q)
    (fun _ => none)

/-- The six required section headings, in the order the source writes
them. -/
def requiredHeadings : List String :=
  ["题目", "答案", "分析", "详解", "知识点", "属性"]

/-- The sorted list of required headings absent from the parsed sections
(`sorted(required_headings - sections.keys())`). -/
def missingList (content : String) : List String :=
  sortStrings (requiredHeadings.filter (fun h => (parse_sections content h).isNone))

/-- The `ValueError`s `build_payload` can raise, one constructor per raise
site (`int(md_path.stem)` propagates its own `ValueError`). -/
inductive LoadError where
  | missingSections (names : List String)
  | missingAttribute (key : String)
  | accuracyNotFloat
  | emptyQuestion
  | emptyAnswer
  | badQuestionId (stem : String)
deriving DecidableEq

/-- The database-ready record `build_payload` assembles. -/
structure Payload where
  question_id : Int
  question_type : String
  accuracy : Rat
  question : String
  answer : List String
  analysis : List String
  explanation : List String
  knowledge : List String
deriving DecidableEq

/-- Embeds `build_payload` for a file with the given stem and contents:
check the six required sections (error lists all missing ones, sorted),
read `question_type` and a float `accuracy` from the Attributes section,
render the content sections, reject an empty question or answer, and parse
the stem as the integer id.  Section bodies are read with a default that is
unreachable once the missing-section check has passed. -/
def build_payload (stem content : String) : Except LoadError Payload :=
  let sections := parse_sections content
  if missingList content ≠ [] then
    .error (.missingSections (missingList content))
  else
    let attributes := parse_attributes ((sections "属性").getD "")
    match attributes "question_type" with
    | none => .error (.missingAttribute "question_type")
    | some question_type =>
      match attributes "accuracy" with
      | none => .error (.missingAttribute "accuracy")
      | some accuracyRaw =>
        match pyFloat accuracyRaw with
        | none => .error .accuracyNotFloat
        | some accuracy =>
          let question_html := markdown_to_html ((sections "题目").getD "")
          let answer_text_list := markdown_to_text_list ((sections "答案").getD "")
          let analysis_html_list := markdown_to_html_list ((sections "分析").getD "")
          let explanation_html_list := markdown_to_html_list ((sections "详解").getD "")
          let knowledge_text_list := markdown_to_text_list ((sections "知识点").getD "")
          if question_html = "" then .error .emptyQuestion
          else if answer_text_list = [] then .error .emptyAnswer
          else
            match pyInt stem with
            | none => .error (.badQuestionId stem)
            | some question_id =>
              .ok { question_id := question_id
                    question_type := question_type
                    accuracy := accuracy
                    question := question_html
                    answer := answer_text_list
                    analysis := analysis_html_list
                    explanation := explanation_html_list
                    knowledge := knowledge_text_list }

instance : DecidableEq (Except LoadError Payload) := fun x y =>
  match x, y with
  | .error a, .error b =>
    if h : a = b then .isTrue (by rw [h]) else .isFalse (by simp [h])
  | .ok a, .ok b =>
    if h : a = b then .isTrue (by rw [h]) else .isFalse (by simp [h])
  | .error _, .ok _ => .isFalse (by simp)
  | .ok _, .error _ => .isFalse (by simp)

/-! ## Store writer -/

/-- The `content.questions` table, keyed by `question_id`. -/
def Table := Int → Option Payload

/-- Embeds the effect of `insert_question`'s upsert: on conflict with an
existing `question_id` every non-key field is overwritten. -/
def insert_question (table : Table) (payload : Payload) : Table :=
  fun qid => if qid = payload.question_id then some payload else table qid

/-- Embeds the load path of `main`: build the payload first, and only on
success touch the store.  Returns the error (if any) next to the resulting
table state. -/
def loadQuestionMd (stem content : String) (table : Table) :
    Option LoadError × Table :=
  match build_payload stem content with
  | .error e => (some e, table)
  | .ok payload => (none, insert_question table payload)

/-! ## Helper lemmas about the string primitives -/

theorem string_eq_empty_iff (s : String) : s = "" ↔ s.data = [] := by
  simp [String.ext_iff]

theorem mk_data (m : List Char) : (String.mk m).data = m := rfl

theorem pyStrip_data (s : String) : (pyStrip s).data = stripChars s.data := rfl

theorem dropWhile_head_false (p : Char → Bool) :
    ∀ (l : List Char) (c : Char) (r : List Char), l.dropWhile p = c :: r → p c = false := by
  intro l
  induction l with
  | nil => intro c r h; simp [List.dropWhile] at h
  | cons a t ih =>
    intro c r h
    by_cases ha : p a
    · rw [List.dropWhile_cons_of_pos ha] at h
      exact ih c r h
    · rw [List.dropWhile_cons_of_neg ha] at h
      cases h
      simpa using ha

theorem mem_dropWhile_of_false {p : Char → Bool} {c : Char} :
    ∀ {l : List Char}, c ∈ l → p c = false → c ∈ l.dropWhile p := by
  intro l
  induction l with
  | nil => intro h _; simp at h
  | cons a t ih =>
    intro hm hc
    by_cases ha : p a
    · rw [List.dropWhile_cons_of_pos ha]
      rcases List.mem_cons.mp hm with h | h
      · subst h; rw [hc] at ha; simp at ha
      · exact ih h hc
    · rw [List.dropWhile_cons_of_neg ha]
      exact hm

theorem stripChars_eq_nil_iff (l : List Char) :
    stripChars l = [] ↔ ∀ c ∈ l, c.isWhitespace = true := by
  constructor
  · intro h c hc
    by_contra hw
    have hw' : c.isWhitespace = false := by
      cases hcw : c.isWhitespace
      · rfl
      · exact absurd hcw hw
    have hmem : c ∈ l.dropWhile Char.isWhitespace := mem_dropWhile_of_false hc hw'
    have := List.rdropWhile_eq_nil_iff.mp h c hmem
    rw [hw'] at this
    simp at this
  · intro h
    apply List.rdropWhile_eq_nil_iff.mpr
    intro x hx
    exact h x (( List.dropWhile_suffix Char.isWhitespace).subset hx)

theorem pyStrip_eq_empty_iff (s : String) :
    pyStrip s = "" ↔ ∀ c ∈ s.data, c.isWhitespace = true := by
  rw [string_eq_empty_iff, pyStrip_data, stripChars_eq_nil_iff]

theorem pyStrip_ne_empty_of_mem {s : String} {c : Char}
    (hm : c ∈ s.data) (hc : c.isWhitespace = false) : pyStrip s ≠ "" := by
  intro h
  have := (pyStrip_eq_empty_iff s).mp h c hm
  rw [hc] at this
  simp at this

theorem stripChars_head_false {l : List Char} {c : Char} {r : List Char}
    (h : stripChars l = c :: r) : c.isWhitespace = false := by
  have hpre : stripChars l <+: l.dropWhile Char.isWhitespace :=
    List.rdropWhile_prefix Char.isWhitespace (l.dropWhile Char.isWhitespace)
  rcases hpre with ⟨t, ht⟩
  rw [h] at ht
  exact dropWhile_head_false Char.isWhitespace l c (r ++ t) ht.symm

theorem stripChars_idem (l : List Char) : stripChars (stripChars l) = stripChars l := by
  have h1 : (stripChars l).dropWhile Char.isWhitespace = stripChars l := by
    cases hm : stripChars l with
    | nil => simp
    | cons c r =>
      have hc := stripChars_head_false hm
      rw [List.dropWhile_cons_of_neg (by simp [hc])]
  show ((stripChars l).dropWhile Char.isWhitespace).rdropWhile Char.isWhitespace = stripChars l
  rw [h1]
  exact List.rdropWhile_idempotent Char.isWhitespace (l.dropWhile Char.isWhitespace)

theorem pyStrip_idem (s : String) : pyStrip (pyStrip s) = pyStrip s := by
  show String.mk (stripChars (stripChars s.data)) = String.mk (stripChars s.data)
  rw [stripChars_idem]

theorem dropWhile_append_of_all {p : Char → Bool} :
    ∀ {l1 : List Char} (l2 : List Char), (∀ c ∈ l1, p c = true) →
      (l1 ++ l2).dropWhile p = l2.dropWhile p := by
  intro l1
  induction l1 with
  | nil => intro l2 _; rfl
  | cons a t ih =>
    intro l2 h
    rw [List.cons_append, List.dropWhile_cons_of_pos (by simp [h a (by simp)])]
    exact ih l2 (fun c hc => h c (by simp [hc]))

theorem pyStrip_ws_append (ws line : String)
    (h : ∀ c ∈ ws.data, c.isWhitespace = true) :
    pyStrip (ws ++ line) = pyStrip line := by
  show String.mk (stripChars (ws ++ line).data) = String.mk (stripChars line.data)
  rw [String.data_append]
  show String.mk (((ws.data ++ line.data).dropWhile Char.isWhitespace).rdropWhile _) = _
  rw [dropWhile_append_of_all line.data h]
  rfl

/-! ## Helper lemmas about sorting -/

theorem mem_insertStr {a x : String} :
    ∀ {l : List String}, a ∈ insertStr x l ↔ a = x ∨ a ∈ l := by
  intro l
  induction l with
  | nil => simp [insertStr]
  | cons y ys ih =>
    simp only [insertStr]
    by_cases h : charsLe x.data y.data
    · rw [if_pos h]; simp [List.mem_cons]
    · rw [if_neg h]; simp [List.mem_cons, ih]; tauto

theorem mem_sortStrings {a : String} :
    ∀ {l : List String}, a ∈ sortStrings l ↔ a ∈ l := by
  intro l
  induction l with
  | nil => simp [sortStrings]
  | cons x xs ih => simp [sortStrings, mem_insertStr, ih]

/-! ## The section-splitter refinement -/

theorem flushState_foldl (t : String) :
    ∀ (ls : List String) (st : ParseState),
      flushState (ls.foldl parseStep st) t =
        match specLookup ls t with
        | some b => some b
        | none =>
          match st.current with
          | some h =>
            if t = h then
              some (pyStrip (String.intercalate "\n" (st.buffer ++ bodyAfter ls)))
            else st.sections t
          | none => st.sections t := by
  intro ls
  induction ls with
  | nil =>
    intro st
    cases hc : st.current with
    | none => simp [flushState, hc, specLookup]
    | some h => simp [flushState, hc, specLookup, bodyAfter]
  | cons l rest ih =>
    intro st
    rw [List.foldl_cons]
    cases hm : headingMatch (pyStrip l) with
    | some s =>
      have hstep : parseStep st l =
          { sections := flushState st, current := some s, buffer := [] } := by
        simp [parseStep, hm]
      rw [hstep, ih]
      have hbody : bodyAfter (l :: rest) = [] := by
        simp [bodyAfter, List.takeWhile_cons, hm]
      cases hr : specLookup rest t with
      | some b => simp only [specLookup, hr]
      | none =>
        by_cases hts : t = s
        · subst hts
          simp [specLookup, hr, hm]
        · have hst : ¬ s = t := fun h => hts h.symm
          cases hc : st.current with
          | none => simp [specLookup, hr, hm, hst, flushState, hc, hts, hbody]
          | some h => simp [specLookup, hr, hm, hst, flushState, hc, hts, hbody]
    | none =>
      have hlook : specLookup (l :: rest) t = specLookup rest t := by
        cases hr : specLookup rest t <;> simp [specLookup, hr, hm]
      cases hc : st.current with
      | none =>
        have hstep : parseStep st l = st := by simp [parseStep, hm, hc]
        rw [hstep, ih, hlook]
        cases hr : specLookup rest t <;> simp [hr, hc]
      | some h =>
        have hstep : parseStep st l = { st with buffer := st.buffer ++ [l] } := by
          simp [parseStep, hm, hc]
        have hbody : bodyAfter (l :: rest) = l :: bodyAfter rest := by
          simp [bodyAfter, List.takeWhile_cons, hm]
        rw [hstep, ih, hlook]
        cases hr : specLookup rest t <;> simp [hr, hc, hbody]

/-! ## Claim theorems -/

/-- C1: for an input file named `42.md` whose Question section is
"What is 2+2?", whose Answer section is "4", whose Analysis, Explanation and
Knowledge sections are empty, and whose Attributes section holds
`question_type: numeric` and `accuracy: 0.95`, `build_payload` returns
exactly the record `{question_id: 42, question_type: "numeric",
accuracy: 0.95, question: "<p>What is 2+2?</p>", answer: ["4"],
analysis: [], explanation: [], knowledge: []}`. -/
theorem claim_c1_example_payload :
    build_payload "42"
        "# 题目\nWhat is 2+2?\n# 答案\n4\n# 分析\n# 详解\n# 知识点\n# 属性\nquestion_type: numeric\naccuracy: 0.95" =
      .ok { question_id := 42, question_type := "numeric", accuracy := 0.95,
            question := "<p>What is 2+2?</p>", answer := ["4"],
            analysis := [], explanation := [], knowledge := [] } := by
  have h95 : (0.95 : Rat) = mkRat 95 100 := by
    have h1 : (0.95 : Rat) = mkRat 19 20 := by norm_num
    have h2 : mkRat 95 100 = mkRat 19 20 := by decide
    rw [h1, h2]
  rw [h95]
  decide

/-- C2 is refuted as stated: this document has all six required headings and
non-empty Question and Answer sections, yet `build_payload` fails (its
Attributes section is empty, so `question_type` is missing) instead of
returning a record. -/
theorem claim_c2_counterexample :
    (∀ t ∈ requiredHeadings,
      parse_sections "# 题目\nQ\n# 答案\n4\n# 分析\n# 详解\n# 知识点\n# 属性" t ≠ none) ∧
    parse_sections "# 题目\nQ\n# 答案\n4\n# 分析\n# 详解\n# 知识点\n# 属性" "题目" = some "Q" ∧
    parse_sections "# 题目\nQ\n# 答案\n4\n# 分析\n# 详解\n# 知识点\n# 属性" "答案" = some "4" ∧
    build_payload "42" "# 题目\nQ\n# 答案\n4\n# 分析\n# 详解\n# 知识点\n# 属性" =
      .error (.missingAttribute "question_type") := by
  decide

/-- C2 (amended): for every document containing all six required headings
whose Attributes section yields a `question_type` and a float-parseable
`accuracy`, whose Question section renders to non-empty HTML, whose Answer
section yields a non-empty text-fragment list, and whose filename stem
parses as an integer, `build_payload` returns a record whose `question_id`
equals the integer value of the stem (and whose other fields are the
rendered sections). -/
theorem claim_c2_question_id (stem content qS aS anS exS knS atS qt accS : String)
    (acc : Rat) (n : Int)
    (h1 : parse_sections content "题目" = some qS)
    (h2 : parse_sections content "答案" = some aS)
    (h3 : parse_sections content "分析" = some anS)
    (h4 : parse_sections content "详解" = some exS)
    (h5 : parse_sections content "知识点" = some knS)
    (h6 : parse_sections content "属性" = some atS)
    (h7 : parse_attributes atS "question_type" = some qt)
    (h8 : parse_attributes atS "accuracy" = some accS)
    (h9 : pyFloat accS = some acc)
    (h10 : markdown_to_html qS ≠ "")
    (h11 : markdown_to_text_list aS ≠ [])
    (h12 : pyInt stem = some n) :
    build_payload stem content =
      .ok { question_id := n, question_type := qt, accuracy := acc,
            question := markdown_to_html qS,
            answer := markdown_to_text_list aS,
            analysis := markdown_to_html_list anS,
            explanation := markdown_to_html_list exS,
            knowledge := markdown_to_text_list knS } := by
  have hm : missingList content = [] := by
    simp [missingList, requiredHeadings, List.filter_cons, h1, h2, h3, h4, h5, h6,
      sortStrings]
  simp only [build_payload]
  rw [if_neg (by simp [hm])]
  simp [h1, h2, h3, h4, h5, h6, h7, h8, h9, h10, h11, h12]

/-- C2 witness: a complete well-formed document on which the amended claim
yields the fully determined payload. -/
theorem claim_c2_witness :
    build_payload "7"
        "# 题目\nHi\n# 答案\n- a\n- b\n# 分析\nNote\n# 详解\n# 知识点\nK\n# 属性\nquestion_type: choice\naccuracy: 0.5" =
      .ok { question_id := 7, question_type := "choice", accuracy := mkRat 5 10,
            question := "<p>Hi</p>", answer := ["a", "b"],
            analysis := ["<p>Note</p>"], explanation := [], knowledge := ["K"] } := by
  have h := claim_c2_question_id "7"
      "# 题目\nHi\n# 答案\n- a\n- b\n# 分析\nNote\n# 详解\n# 知识点\nK\n# 属性\nquestion_type: choice\naccuracy: 0.5"
      "Hi" "- a\n- b" "Note" "" "K" "question_type: choice\naccuracy: 0.5"
      "choice" "0.5" (mkRat 5 10) 7
      (by decide) (by decide) (by decide) (by decide) (by decide) (by decide)
      (by decide) (by decide) (by decide) (by decide) (by decide) (by decide)
  rw [h]
  decide

/-- C3: for every document missing at least one required heading,
`build_payload` fails with the missing-sections error, and the headings it
names are exactly the required headings absent from the section map. -/
theorem claim_c3_missing_sections (stem content : String)
    (h : missingList content ≠ []) :
    build_payload stem content = .error (.missingSections (missingList content)) ∧
    ∀ t, t ∈ missingList content ↔
      t ∈ requiredHeadings ∧ parse_sections content t = none := by
  constructor
  · simp only [build_payload]
    rw [if_pos h]
  · intro t
    rw [missingList, mem_sortStrings, List.mem_filter]
    simp [Option.isNone_iff_eq_none]

/-- C3 witness: a document with only the Question heading fails naming the
other five, in sorted order. -/
theorem claim_c3_witness :
    build_payload "1" "# 题目\nQ" =
      .error (.missingSections (missingList "# 题目\nQ")) ∧
    missingList "# 题目\nQ" = ["分析", "属性", "知识点", "答案", "详解"] :=
  ⟨(claim_c3_missing_sections "1" "# 题目\nQ" (by decide)).1, by decide⟩

/-- C4: whenever the node walk of `markdown_to_text_list` produces exactly
one cleaned fragment but the stripped source has more than one non-blank
raw line, the reconciliation rule returns the trimmed non-blank raw lines
instead. -/
theorem claim_c4_single_fragment (source : String)
    (h0 : pyStrip source ≠ "")
    (h1 : (textCleanedFragments (pyStrip source)).length = 1)
    (h2 : (rawLines (pyStrip source)).length > 1) :
    markdown_to_text_list source = rawLines (pyStrip source) := by
  have hne : textCleanedFragments (pyStrip source) ≠ [] := by
    intro hnil; rw [hnil] at h1; simp at h1
  simp only [markdown_to_text_list]
  rw [if_neg h0, if_pos hne, if_pos ⟨h1, h2⟩]

/-- C4 witness: the two-line soft-wrapped input `"A\nB"` renders to a single
paragraph fragment yet splits back into the two raw lines. -/
theorem claim_c4_witness : markdown_to_text_list "A\nB" = ["A", "B"] := by
  have h := claim_c4_single_fragment "A\nB" (by decide) (by decide) (by decide)
  rw [h]
  decide

/-- C5 is refuted as stated: on the input `"<hr>"` the node walk produces no
fragments and there is exactly one non-blank raw line, yet the result is the
empty list (the whole-soup plain-text fallback, which is empty), not the raw
line `"<hr>"`. -/
theorem claim_c5_counterexample :
    textCleanedFragments (pyStrip "<hr>") = [] ∧
    rawLines (pyStrip "<hr>") = ["<hr>"] ∧
    markdown_to_text_list "<hr>" = [] := by
  decide

/-- C5 (amended): when the node walk produces no cleaned fragments, the raw
lines are returned only when there are MORE than one of them; with at most
one non-blank raw line the result is instead the whole-soup plain text, as a
singleton when non-empty and as the empty list otherwise. -/
theorem claim_c5_no_fragments (source : String)
    (h0 : pyStrip source ≠ "")
    (h1 : textCleanedFragments (pyStrip source) = []) :
    ((rawLines (pyStrip source)).length > 1 →
      markdown_to_text_list source = rawLines (pyStrip source)) ∧
    (¬ (rawLines (pyStrip source)).length > 1 →
      markdown_to_text_list source =
        if soupGetText (renderNodes (pyStrip source)) ≠ ""
        then [soupGetText (renderNodes (pyStrip source))] else []) := by
  constructor
  · intro h2
    simp only [markdown_to_text_list]
    rw [if_neg h0, if_neg (by simp [h1]), if_pos h2]
  · intro h2
    simp only [markdown_to_text_list]
    rw [if_neg h0, if_neg (by simp [h1]), if_neg h2]

/-- C5 witness: applying the amended claim at `"<hr>"` gives the empty
fallback result. -/
theorem claim_c5_witness : markdown_to_text_list "<hr>" = [] := by
  have h := (claim_c5_no_fragments "<hr>" (by decide) (by decide)).2 (by decide)
  rw [h]
  decide

/-- C6 is refuted as stated: the link reference definition `"[x]: /url"` is
non-blank but CommonMark renders it to EMPTY HTML, so no fragments survive
and `cleaned or [html]` returns the singleton `[""]` — the fallback is
returned although the rendered HTML is empty, and the returned list
contains an empty string. -/
theorem claim_c6_counterexample :
    pyStrip "[x]: /url" ≠ "" ∧
    htmlCleanedFragments (pyStrip "[x]: /url") = [] ∧
    renderHtml (pyStrip "[x]: /url") = "" ∧
    markdown_to_html_list "[x]: /url" = [""] := by
  decide

/-- C6 (amended): empty or whitespace-only fragments are dropped — whenever
any cleaned fragment survives, the result is the cleaned fragments and no
returned string is empty or whitespace-only; the single-fragment whole-HTML
fallback is returned exactly when no fragment survives and the stripped
source is non-empty, even when the rendered HTML is itself empty (then the
returned list is `[""]`); a blank source yields the empty list. -/
theorem claim_c6_html_fragments (source : String) :
    (htmlCleanedFragments (pyStrip source) ≠ [] →
      markdown_to_html_list source = htmlCleanedFragments (pyStrip source) ∧
      ∀ s ∈ markdown_to_html_list source, pyStrip s ≠ "") ∧
    (pyStrip source ≠ "" → htmlCleanedFragments (pyStrip source) = [] →
      markdown_to_html_list source = [renderHtml (pyStrip source)]) ∧
    (pyStrip source = "" → markdown_to_html_list source = []) := by
  refine ⟨fun hcl => ?_, fun h0 hcl => ?_, fun h0 => ?_⟩
  · have h0 : pyStrip source ≠ "" := by
      intro h0
      apply hcl
      rw [h0]
      decide
    have hres : markdown_to_html_list source = htmlCleanedFragments (pyStrip source) := by
      simp only [markdown_to_html_list]
      rw [if_neg h0, if_neg hcl]
    refine ⟨hres, ?_⟩
    intro s hs
    rw [hres, htmlCleanedFragments] at hs
    obtain ⟨hmap, hne⟩ := List.mem_filter.mp hs
    obtain ⟨g, _, hgs⟩ := List.mem_map.mp hmap
    have hsne : s ≠ "" := by simpa using hne
    rw [← hgs, pyStrip_idem, hgs]
    exact hsne
  · simp only [markdown_to_html_list]
    rw [if_neg h0, if_pos hcl]
  · simp only [markdown_to_html_list]
    rw [if_pos h0]

/-- C6 witness: on the input `"x"` a fragment survives, so the cleaned
fragments are returned and each is non-blank. -/
theorem claim_c6_witness :
    markdown_to_html_list "x" = htmlCleanedFragments (pyStrip "x") ∧
    ∀ s ∈ markdown_to_html_list "x", pyStrip s ≠ "" :=
  (claim_c6_html_fragments "x").1 (by decide)

/-- C7: once the six sections are present, a missing `question_type` fails
with the error naming that key; a missing `accuracy` fails with the error
naming `accuracy`; an `accuracy` that does not parse as a float fails with
the accuracy error. -/
theorem claim_c7_attribute_failures (stem content atS : String)
    (hm : missingList content = [])
    (hat : parse_sections content "属性" = some atS) :
    (parse_attributes atS "question_type" = none →
      build_payload stem content = .error (.missingAttribute "question_type")) ∧
    (∀ qt, parse_attributes atS "question_type" = some qt →
      parse_attributes atS "accuracy" = none →
      build_payload stem content = .error (.missingAttribute "accuracy")) ∧
    (∀ qt accS, parse_attributes atS "question_type" = some qt →
      parse_attributes atS "accuracy" = some accS →
      pyFloat accS = none →
      build_payload stem content = .error .accuracyNotFloat) := by
  refine ⟨fun hq => ?_, fun qt hq ha => ?_, fun qt accS hq ha hf => ?_⟩
  · simp only [build_payload]
    rw [if_neg (by simp [hm])]
    simp [hat, hq]
  · simp only [build_payload]
    rw [if_neg (by simp [hm])]
    simp [hat, hq, ha]
  · simp only [build_payload]
    rw [if_neg (by simp [hm])]
    simp [hat, hq, ha, hf]

/-- C7 witness: a document whose accuracy value is not numeric fails with
the accuracy error. -/
theorem claim_c7_witness :
    build_payload "9"
        "# 题目\nQ\n# 答案\n4\n# 分析\n# 详解\n# 知识点\n# 属性\nquestion_type: t\naccuracy: abc" =
      .error .accuracyNotFloat :=
  (claim_c7_attribute_failures "9"
      "# 题目\nQ\n# 答案\n4\n# 分析\n# 详解\n# 知识点\n# 属性\nquestion_type: t\naccuracy: abc"
      "question_type: t\naccuracy: abc" (by decide) (by decide)).2.2
    "t" "abc" (by decide) (by decide) (by decide)

/-- C8: the section map built by `parse_sections` binds every title to the
body accumulated under its LAST heading occurrence — the lines after that
heading up to the next heading, joined by newlines and trimmed — earlier
bodies for the same title being overwritten (`specLookup` is this
last-occurrence reading of the spec, proved equal on every document and
title). -/
theorem claim_c8_last_occurrence (content t : String) :
    parse_sections content t = specLookup (pySplitlines content) t := by
  show flushState ((pySplitlines content).foldl parseStep ⟨fun _ => none, none, []⟩) t = _
  rw [flushState_foldl]
  cases hr : specLookup (pySplitlines content) t <;> simp [hr]

/-- C9: whenever `build_payload` fails, the load path returns the error with
the table unchanged — `insert_question` is never reached. -/
theorem claim_c9_no_storage_on_error (stem content : String) (table : Table)
    (e : LoadError) (h : build_payload stem content = .error e) :
    loadQuestionMd stem content table = (some e, table) := by
  simp [loadQuestionMd, h]

/-- C9 witness: a failing document leaves an empty table empty. -/
theorem claim_c9_witness :
    loadQuestionMd "42" "# 题目\nQ" (fun _ => none) =
      (some (.missingSections (missingList "# 题目\nQ")), (fun _ => none : Table)) :=
  claim_c9_no_storage_on_error "42" "# 题目\nQ" (fun _ => none)
    (.missingSections (missingList "# 题目\nQ")) (by decide)

/-- C10: the heading pattern is matched against each line after stripping,
so any whitespace-indented heading line is recognized and starts a new
section (with the buffer flushed) instead of being buffered as body text. -/
theorem claim_c10_indented_heading (st : ParseState) (ws line t : String)
    (hws : ∀ c ∈ ws.data, c.isWhitespace = true)
    (ht : headingMatch (pyStrip line) = some t) :
    headingMatch (pyStrip (ws ++ line)) = some t ∧
    parseStep st (ws ++ line) =
      { sections := flushState st, current := some t, buffer := [] } := by
  have heq : pyStrip (ws ++ line) = pyStrip line := pyStrip_ws_append ws line hws
  refine ⟨by rw [heq, ht], ?_⟩
  simp [parseStep, heq, ht]

/-- C10 witness: the four-space-indented heading line `"    # 题目"` is
recognized as the heading `题目`. -/
theorem claim_c10_witness :
    headingMatch (pyStrip ("    " ++ "# 题目")) = some "题目" ∧
    parseStep ⟨fun _ => none, none, []⟩ ("    " ++ "# 题目") =
      { sections := flushState ⟨fun _ => none, none, []⟩, current := some "题目",
        buffer := [] } :=
  claim_c10_indented_heading ⟨fun _ => none, none, []⟩ "    " "# 题目" "题目"
    (by decide) (by decide)

end LoadQuestionMd
